import Mathlib

/-!
Verification of the retry/cancellation core of `react-lazy-retry`
(src/src/LazyLoad.tsx), shallowly embedded in Lean.

Modules and errors loaded by `importFn` are abstracted as natural-number
codes.  The promise handed to `React.lazy` is the ResourceHandle: a
tri-state value with first-settlement-wins semantics (JS promises ignore
`resolve`/`reject` calls once settled).  Log lines are counted rather than
stored; a log call is only counted when `verbose` is true, mirroring the
`log` helper (LazyLoad.tsx lines 59-72).
-/

namespace LazyRetry

/-- Error value carried by a rejected handle: either the loader's own error
(`error` from the final `.catch`) or the synthetic
`new Error("Import cancelled due to component unmount")`. -/
inductive LoadError where
  | loaderError (code : Nat)
  | cancelledError
  deriving DecidableEq, Repr

/-- The ResourceHandle: the promise given to `React.lazy`
(LazyLoad.tsx line 124), tri-state. -/
inductive Handle where
  | pending
  | resolvedH (v : Nat)
  | rejectedH (e : LoadError)
  deriving DecidableEq, Repr

/-- JS promise `resolve`: settles a pending handle, no-op once settled. -/
def settleResolve (h : Handle) (v : Nat) : Handle :=
  match h with
  | .pending => .resolvedH v
  | _ => h

/-- JS promise `reject`: settles a pending handle, no-op once settled. -/
def settleReject (h : Handle) (e : LoadError) : Handle :=
  match h with
  | .pending => .rejectedH e
  | _ => h

/-- Outcome of one `importFn()` invocation. -/
inductive ImportOutcome where
  | success (m : Nat)
  | failure (e : Nat)
  deriving DecidableEq, Repr

/-- RetryPolicy: the `retries` and `retryDelay` props (defaults 3 and 1000). -/
structure Policy where
  retries : Nat
  retryDelay : Nat
  deriving DecidableEq, Repr

/-- Observable state of one LoaderInstance run: the closure state of the
promise executor (LazyLoad.tsx lines 124-169) plus counters for every
observable effect.  `attempts` is the `attempts` variable; `handle` the
promise; `settles` counts `resolve`/`reject` calls; `invocations` counts
`importFn()` calls; `delays` records each delay passed to
`createSafeTimeout`, in order; `logs` counts emitted log lines;
`onErrorCalls`/`onRetryCalls` count invocations of the user callbacks
(never touched by the orchestrator itself). -/
structure StepState where
  attempts : Nat
  handle : Handle
  settles : Nat
  invocations : Nat
  delays : List Nat
  logs : Nat
  onErrorCalls : Nat
  onRetryCalls : Nat
  deriving DecidableEq, Repr

/-- Fresh executor state: `attempts = 0`, pending handle, no effects yet. -/
def initStep : StepState :=
  { attempts := 0, handle := .pending, settles := 0, invocations := 0,
    delays := [], logs := 0, onErrorCalls := 0, onRetryCalls := 0 }

/-- Settlement handlers of one in-flight `importFn()` call: the `.then` /
`.catch` bodies of `tryImport` (LazyLoad.tsx lines 134-161).  `cancelled`
is `currentAttemptCancelled` and `mounted` is `isMountedRef.current`, both
read at the moment the attempt settles.  On success: resolve only when not
cancelled and still mounted.  On failure: if cancelled/unmounted, reject
with the cancellation error; otherwise increment `attempts`, log, and
either reject with the loader's error (attempts ≥ retries) or log and
schedule a retry timer after `retryDelay * attempts` (the `mounted = true`
branch, so `createSafeTimeout` does schedule). -/
def attemptSettled (p : Policy) (verbose cancelled mounted : Bool)
    (outcome : ImportOutcome) (s : StepState) : StepState :=
  match outcome with
  | .success m =>
      if !cancelled && mounted then
        { s with handle := settleResolve s.handle m, settles := s.settles + 1 }
      else
        s
  | .failure e =>
      if cancelled || !mounted then
        { s with handle := settleReject s.handle .cancelledError,
                 settles := s.settles + 1 }
      else if s.attempts + 1 ≥ p.retries then
        { s with attempts := s.attempts + 1,
                 logs := s.logs + (if verbose then 1 else 0),
                 handle := settleReject s.handle (.loaderError e),
                 settles := s.settles + 1 }
      else
        { s with attempts := s.attempts + 1,
                 logs := s.logs + (if verbose then 2 else 0),
                 delays := s.delays ++ [p.retryDelay * (s.attempts + 1)] }

/-- The full `tryImport` loop (LazyLoad.tsx lines 128-164) for a run in
which `currentAttemptCancelled` and `isMountedRef.current` stay constant
(no teardown/rekey during the run) and every scheduled retry timer fires.
`loader k` is the outcome of the (k+1)-th `importFn()` invocation.  Entry
guard: if cancelled/unmounted, reject with the cancellation error.
Otherwise invoke the loader; on success resolve (guarded); on failure
increment `attempts`, log, and either reject (attempts ≥ retries) or log,
schedule `retryDelay * attempts`, and re-enter `tryImport` when the timer
fires. -/
def tryImportRun (loader : Nat → ImportOutcome) (p : Policy)
    (verbose cancelled mounted : Bool) (s : StepState) : StepState :=
  if cancelled || !mounted then
    { s with handle := settleReject s.handle .cancelledError,
             settles := s.settles + 1 }
  else
    match loader s.invocations with
    | .success m =>
        if !cancelled && mounted then
          { s with invocations := s.invocations + 1,
                   handle := settleResolve s.handle m,
                   settles := s.settles + 1 }
        else
          { s with invocations := s.invocations + 1 }
    | .failure e =>
        if cancelled || !mounted then
          { s with invocations := s.invocations + 1,
                   handle := settleReject s.handle .cancelledError,
                   settles := s.settles + 1 }
        else if s.attempts + 1 ≥ p.retries then
          { s with invocations := s.invocations + 1,
                   attempts := s.attempts + 1,
                   logs := s.logs + (if verbose then 1 else 0),
                   handle := settleReject s.handle (.loaderError e),
                   settles := s.settles + 1 }
        else
          tryImportRun loader p verbose cancelled mounted
            { s with invocations := s.invocations + 1,
                     attempts := s.attempts + 1,
                     logs := s.logs + (if verbose then 2 else 0),
                     delays := s.delays ++ [p.retryDelay * (s.attempts + 1)] }
termination_by p.retries - s.attempts
decreasing_by simp; omega

/-- The list of linear-backoff delays `base*a, base*(a+1), ..., base*(a+t-1)`
scheduled by `t` consecutive non-final failures starting at attempt count `a`. -/
def backoffDelays (base a : Nat) : Nat → List Nat
  | 0 => []
  | t + 1 => base * a :: backoffDelays base (a + 1) t

/-- A loader that fails on every invocation, with error `err k` on the
(k+1)-th invocation. -/
def alwaysFail (err : Nat → Nat) : Nat → ImportOutcome :=
  fun k => .failure (err k)


theorem backoffDelays_succ (base a t : Nat) :
    backoffDelays base a (t + 1) = base * a :: backoffDelays base (a + 1) t := rfl

theorem run_alwaysFail (err : Nat → Nat) (p : Policy) (v : Bool) :
    ∀ n s, p.retries - s.attempts ≤ n → s.handle = .pending →
    tryImportRun (alwaysFail err) p v false true s =
      { s with
        invocations := s.invocations + max (p.retries - s.attempts) 1,
        attempts := s.attempts + max (p.retries - s.attempts) 1,
        handle := .rejectedH (.loaderError (err (s.invocations + max (p.retries - s.attempts) 1 - 1))),
        settles := s.settles + 1,
        delays := s.delays ++ backoffDelays p.retryDelay (s.attempts + 1) (max (p.retries - s.attempts) 1 - 1),
        logs := s.logs + (if v then 2 * max (p.retries - s.attempts) 1 - 1 else 0) } := by
  intro n
  induction n with
  | zero =>
    intro s hn hp
    have hr : p.retries ≤ s.attempts + 1 := by omega
    have ht : max (p.retries - s.attempts) 1 = 1 := by omega
    rw [tryImportRun]
    simp only [Bool.or_eq_true, Bool.not_eq_true', alwaysFail, ht, hp]
    simp [settleReject, hr, backoffDelays]
  | succ n ih =>
    intro s hn hp
    by_cases hr : p.retries ≤ s.attempts + 1
    · have ht : max (p.retries - s.attempts) 1 = 1 := by omega
      rw [tryImportRun]
      simp only [Bool.or_eq_true, Bool.not_eq_true', alwaysFail, ht, hp]
      simp [settleReject, hr, backoffDelays]
    · rw [tryImportRun]
      simp only [alwaysFail]
      rw [if_neg (by simp), if_neg (by simpa using hr), if_neg (by simpa using hr),
        ih _ (by simp; omega) (by simpa using hp)]
      have h1 : (p.retries - (s.attempts + 1)) ⊔ 1 = p.retries - s.attempts - 1 := by omega
      have h2 : (p.retries - s.attempts) ⊔ 1 = p.retries - s.attempts := by omega
      simp only [h1, h2, StepState.mk.injEq]
      have h3 : p.retries - s.attempts - 1 - 1 + 1 = p.retries - s.attempts - 1 := by omega
      have h4 : s.invocations + 1 + (p.retries - s.attempts - 1) - 1 =
          s.invocations + (p.retries - s.attempts) - 1 := by omega
      refine ⟨by omega, by rw [h4], trivial, by omega, ?_, ?_, trivial, trivial⟩
      · rw [← h3, backoffDelays_succ, h3]
        simp
      · cases v <;> simp <;> omega



theorem run_failThenSucceed (err : Nat → Nat) (m : Nat) (f : Nat) (p : Policy) (v : Bool) :
    ∀ n s, f - s.invocations ≤ n → s.handle = .pending → s.attempts = s.invocations →
    s.invocations ≤ f → f < p.retries →
    tryImportRun (fun k => if k < f then .failure (err k) else .success m) p v false true s =
      { s with
        invocations := f + 1,
        attempts := f,
        handle := .resolvedH m,
        settles := s.settles + 1,
        delays := s.delays ++ backoffDelays p.retryDelay (s.attempts + 1) (f - s.attempts),
        logs := s.logs + (if v then 2 * (f - s.attempts) else 0) } := by
  intro n
  induction n with
  | zero =>
    intro s hn hp ha hi hf
    have haf : s.attempts = f := by omega
    have h0 : f - s.attempts = 0 := by omega
    rw [tryImportRun]
    rw [if_neg (by simp), if_neg (by omega)]
    rw [hp]
    simp only [settleResolve, h0, backoffDelays, List.append_nil]
    simp only [show ((!false && true) = true) = True from by simp, if_true, StepState.mk.injEq]
    refine ⟨haf, trivial, trivial, by omega, trivial, by simp, trivial, trivial⟩
  | succ n ih =>
    intro s hn hp ha hi hf
    by_cases hfi : s.invocations < f
    · have g1 : ((false || !true) = true) = False := by simp
      have g2 : (s.invocations < f) = True := eq_true hfi
      have g3 : (s.attempts + 1 ≥ p.retries) = False := eq_false (by omega)
      have hs1 : f - (s.invocations + 1) ≤ n := by omega
      rw [tryImportRun]
      simp only [g1, g2, g3, if_true, if_false]
      rw [ih _ (by simpa using hs1) (by simpa using hp) (by simp [ha]) (by simp; omega) hf]
      have h3 : f - (s.attempts + 1) + 1 = f - s.attempts := by omega
      simp only [StepState.mk.injEq]
      refine ⟨trivial, trivial, trivial, trivial, ?_, ?_, trivial, trivial⟩
      · rw [← h3, backoffDelays_succ]
        simp
      · cases v <;> simp <;> omega
    · have haf : s.attempts = f := by omega
      have h0 : f - s.attempts = 0 := by omega
      rw [tryImportRun]
      rw [if_neg (by simp), if_neg (by omega)]
      rw [hp]
      simp only [settleResolve, h0, backoffDelays, List.append_nil]
      simp only [show ((!false && true) = true) = True from by simp, if_true, StepState.mk.injEq]
      refine ⟨haf, trivial, trivial, by omega, trivial, by simp, trivial, trivial⟩



theorem settleResolve_settled : ∀ h : Handle, h ≠ .pending → ∀ w, settleResolve h w = h := by
  intro h hne w
  cases h
  · exact absurd rfl hne
  · rfl
  · rfl

theorem settleReject_settled : ∀ h : Handle, h ≠ .pending → ∀ e, settleReject h e = h := by
  intro h hne e
  cases h
  · exact absurd rfl hne
  · rfl
  · rfl

theorem run_invariants (loader : Nat → ImportOutcome) (p : Policy) (v c m : Bool) :
    ∀ s : StepState,
    (tryImportRun loader p v c m s).settles ≤ s.settles + 1 ∧
    (tryImportRun loader p v c m s).onErrorCalls = s.onErrorCalls ∧
    (tryImportRun loader p v c m s).onRetryCalls = s.onRetryCalls ∧
    (s.handle ≠ .pending → (tryImportRun loader p v c m s).handle = s.handle) := by
  apply tryImportRun.induct loader p v c m
  · intro x h
    rw [tryImportRun, if_pos h]
    refine ⟨by simp, by simp, by simp, fun hs => ?_⟩
    simp [settleReject_settled _ hs]
  · intro x h1 a hl h2
    rw [tryImportRun, if_neg h1]
    simp only [hl]
    rw [if_pos h2]
    refine ⟨by simp, by simp, by simp, fun hs => ?_⟩
    simp [settleResolve_settled _ hs]
  · intro x h1 a hl h2
    simp_all
  · intro x h1 a hl h2
    exact absurd h2 h1
  · intro x h1 a hl h2 h3
    rw [tryImportRun, if_neg h1]
    simp only [hl]
    rw [if_neg h2, if_pos h3]
    refine ⟨by simp, by simp, by simp, fun hs => ?_⟩
    simp [settleReject_settled _ hs]
  · intro x h1 a hl h2 h3 ih
    simp only [dite_eq_ite] at ih
    rw [tryImportRun, if_neg h1]
    simp only [hl]
    rw [if_neg h2, if_neg h3]
    refine ⟨?_, ?_, ?_, fun hs => ?_⟩
    · exact le_trans ih.1 (by simp)
    · rw [ih.2.1]
    · rw [ih.2.2.1]
    · rw [ih.2.2.2 (by simpa using hs)]


/-- A LoaderInstance: the state owned by one promise executor created by the
`React.useMemo` + `React.lazy` pair (LazyLoad.tsx lines 117-170), identified
by the `retryKey` generation it was created under.  `cancelled` is the
executor-local `currentAttemptCancelled` variable (line 126); note that the
only assignment to it sits in the function returned by the promise executor
(lines 166-168), which a JS `Promise` constructor ignores, so no code path
ever sets it. -/
structure LoaderInstance where
  gen : Nat
  attempts : Nat
  cancelled : Bool
  handle : Handle
  deriving DecidableEq, Repr

/-- The executor state a new generation starts with (lines 125-127). -/
def freshInstance (g : Nat) : LoaderInstance :=
  { gen := g, attempts := 0, cancelled := false, handle := .pending }

/-- Semantic events recorded by the reset path, in emission order:
clearing of the timer registry, the `setRetryKey` increment (which makes the
`useMemo` construct the next LoaderInstance with `attempts = 0`), the
`setMountKey` increment, and the `onRetry` callback invocation. -/
inductive ResetEvent where
  | clearTimers
  | incLoaderGen
  | incMountGen
  | onRetryCall
  deriving DecidableEq, Repr

/-- Component-level state of one mounted `LazyLoad`: the two generation
keys (`mountKey`, `retryKey`, lines 74-75), the shared timer registry
`timersRef` (ids only; line 76), `isMountedRef` (line 77), every
LoaderInstance created so far (in creation order; the instance whose `gen`
equals the current `retryKey` is the live one), callback/log counters, the
error currently held by the ErrorBoundary, and the emitted reset events. -/
structure CompState where
  verbose : Bool
  mountKey : Nat
  retryKey : Nat
  timers : List Nat
  isMounted : Bool
  instances : List LoaderInstance
  onRetryCalls : Nat
  onErrorCalls : Nat
  logs : Nat
  boundaryError : Option LoadError
  events : List ResetEvent
  deriving DecidableEq, Repr

/-- The `log` helper (lines 59-72): emits one line only under `verbose`. -/
def logC (s : CompState) : CompState :=
  { s with logs := s.logs + (if s.verbose then 1 else 0) }

/-- State of a freshly mounted component: both keys 0, no timers, mounted,
one live LoaderInstance of generation 0, no callbacks fired. -/
def initComp (verbose : Bool) : CompState :=
  { verbose := verbose, mountKey := 0, retryKey := 0, timers := [],
    isMounted := true, instances := [freshInstance 0], onRetryCalls := 0,
    onErrorCalls := 0, logs := 0, boundaryError := none, events := [] }

/-- Mirrors `retryLazyComponent` (lines 192-196): log, clear all timers, increment
`retryKey`; the changed `retryKey` makes the `useMemo` (lines 117-171) log
and build a new lazy component whose executor starts with `attempts = 0`
(the effect at lines 173-177 then clears the already-empty registry again).
Nothing here touches the previous LoaderInstance: its `cancelled` flag and
`attempts` stay as they were, and `isMountedRef` stays true. -/
def retryLazyComponent (s : CompState) : CompState :=
  let s1 := logC s
  let s2 := { s1 with timers := [], events := s1.events ++ [ResetEvent.clearTimers] }
  let s3 := { s2 with retryKey := s2.retryKey + 1,
                      events := s2.events ++ [ResetEvent.incLoaderGen] }
  let s4 := logC s3
  { s4 with instances := s4.instances ++ [freshInstance s3.retryKey] }

/-- Mirrors `handleReset` (lines 199-214): log, recreate the lazy component via
`retryLazyComponent`, increment `mountKey` (with its log line), then invoke
the `onRetry` callback (`onRetry?.()` - counted as an invocation of the
user-provided callback). -/
def handleReset (s : CompState) : CompState :=
  let s1 := logC s
  let s2 := retryLazyComponent s1
  let s3 := { s2 with mountKey := s2.mountKey + 1,
                      events := s2.events ++ [ResetEvent.incMountGen] }
  let s4 := logC s3
  { s4 with onRetryCalls := s4.onRetryCalls + 1,
            events := s4.events ++ [ResetEvent.onRetryCall] }

/-- Mirrors `handleError` (lines 180-189), the ErrorBoundary `onError` hook: two
error log lines, then the user `onError` callback, unconditionally. -/
def handleError (e : LoadError) (info : Nat) (s : CompState) : CompState :=
  let s1 := logC (logC s)
  { s1 with onErrorCalls := s1.onErrorCalls + 1 }

/-- Mirrors the boundary's own `resetErrorBoundary`
(react-error-boundary, consumed as a collaborator): it first invokes the
boundary's `onReset` prop - which LazyLoad.tsx line 279 wires to
`handleReset` - and then drops the captured error so the children render
again. -/
def resetBoundary (s : CompState) : CompState :=
  { handleReset s with boundaryError := none }

/-- Mirrors `handleRetry` inside `ErrorFallback` (lines 224-227):
`handleReset()` then `resetErrorBoundary()`; because `resetErrorBoundary`
itself invokes the `onReset` prop (= `handleReset`, line 279), one trigger
invocation runs `handleReset` twice. -/
def handleRetry (s : CompState) : CompState :=
  resetBoundary (handleReset s)

/-- The number of live LoaderInstances: those whose generation is the
current `retryKey` (the one the rendered `LazyComponent` consumes). -/
def liveCount (s : CompState) : Nat :=
  (s.instances.filter (fun i => i.gen == s.retryKey)).length

/-- Shape of a `loadingComponent` / `errorComponent` override, the tagged
variant the runtime dispatch inspects: absent, a pre-built React element
(`React.isValidElement`), a component function (`typeof === "function"`),
or any other truthy value (the final cast branches at lines 246 and 272). -/
inductive OverrideShape where
  | unset
  | element (tag : Nat)
  | factory (tag : Nat)
  | otherVal (tag : Nat)
  deriving DecidableEq, Repr

/-- Visual base of the resolved error view. -/
inductive ErrorViewBase where
  | defaultError
  | clonedElement (tag : Nat)
  | renderedComponent (tag : Nat)
  | rawValue (tag : Nat)
  deriving DecidableEq, Repr

/-- A resolved error view: which visual is shown, which error prop was
passed to it, and the reset trigger handed to it (as a state transformer),
if any. -/
structure ResolvedErrorView where
  base : ErrorViewBase
  passedError : Option LoadError
  trigger : Option (CompState → CompState)

/-- Mirrors `ErrorFallback` (lines 217-255): builds `handleRetry` from `handleReset`
and the boundary's `resetErrorBoundary`, then dispatches on the override's
shape: a valid element is cloned with `{error, resetErrorBoundary}` props
injected, a function is rendered with those props, any other truthy value is
returned as-is (no props), and an unset override falls through to
`DefaultErrorComponent` with those props. -/
def ErrorFallback (errorComponent : OverrideShape) (e : LoadError)
    (resetErrorBoundary : CompState → CompState) : ResolvedErrorView :=
  let hr := fun s => resetErrorBoundary (handleReset s)
  match errorComponent with
  | .element t => { base := .clonedElement t, passedError := some e, trigger := some hr }
  | .factory t => { base := .renderedComponent t, passedError := some e, trigger := some hr }
  | .otherVal t => { base := .rawValue t, passedError := none, trigger := none }
  | .unset => { base := .defaultError, passedError := some e, trigger := some hr }

/-- Visual of the resolved loading view; no variant carries props: the
loading resolution passes no arguments. -/
inductive LoadingView where
  | defaultLoading
  | asIsElement (tag : Nat)
  | renderedNoProps (tag : Nat)
  | rawValue (tag : Nat)
  deriving DecidableEq, Repr

/-- Mirrors `renderLoadingComponent` (lines 258-273): unset gives the built-in
`DefaultLoadingAnimation`; a valid element is returned as-is; a function is
rendered with no props; any other truthy value is returned as-is. -/
def renderLoadingComponent (loadingComponent : OverrideShape) : LoadingView :=
  match loadingComponent with
  | .unset => .defaultLoading
  | .element t => .asIsElement t
  | .factory t => .renderedNoProps t
  | .otherVal t => .rawValue t

/-- World model for the timer registry: `scheduled` is the host's set of
setTimeout ids that are created, not yet fired and not yet cleared;
`timerSet` is `timersRef.current`; `mounted` is `isMountedRef.current`;
`nextId` feeds fresh timer ids. -/
structure TimerWorld where
  nextId : Nat
  scheduled : List Nat
  timerSet : List Nat
  mounted : Bool
  deriving DecidableEq, Repr

/-- Mirrors `createSafeTimeout` (lines 79-97): after unmount it returns without
scheduling anything; otherwise it schedules a fresh timeout and records its
id in `timersRef` (same synchronous step: the callback cannot run before the
`add`).  Returns the id, `none` when nothing was scheduled. -/
def createSafeTimeout (w : TimerWorld) : TimerWorld × Option Nat :=
  if !w.mounted then
    (w, none)
  else
    ({ w with nextId := w.nextId + 1,
              scheduled := w.scheduled ++ [w.nextId],
              timerSet := w.timerSet ++ [w.nextId] }, some w.nextId)

/-- A scheduled timeout fires: the host removes it from `scheduled`; the
wrapper (lines 85-91) first deletes its own id from `timersRef`, then runs
the callback `cb` only if the component is still mounted. -/
def fireTimer (w : TimerWorld) (id : Nat) (cb : TimerWorld → TimerWorld) : TimerWorld :=
  let w1 := { w with scheduled := w.scheduled.filter (fun i => i ≠ id),
                     timerSet := w.timerSet.filter (fun i => i ≠ id) }
  if w1.mounted then cb w1 else w1

/-- Mirrors `clearAllTimers` (lines 99-104): `clearTimeout` every id in `timersRef`
(removing each from the host's scheduled set), then clear the registry. -/
def clearAllTimersW (w : TimerWorld) : TimerWorld :=
  { w with scheduled := w.scheduled.filter (fun i => !(w.timerSet.contains i)),
           timerSet := [] }

/-- The unmount cleanup (lines 109-113): flip `isMountedRef` to false, then
clear all timers (the log line is outside this model's registry). -/
def unmountW (w : TimerWorld) : TimerWorld :=
  clearAllTimersW { w with mounted := false }

/-- The timer-registry invariant: every id in `timersRef` refers to a
scheduled, not-yet-fired, not-yet-cleared timeout. -/
def TimerInv (w : TimerWorld) : Prop :=
  ∀ id, id ∈ w.timerSet → id ∈ w.scheduled

theorem retryLazy_spec (s : CompState) :
    (retryLazyComponent s).retryKey = s.retryKey + 1 ∧
    (retryLazyComponent s).mountKey = s.mountKey ∧
    (retryLazyComponent s).timers = [] ∧
    (retryLazyComponent s).isMounted = s.isMounted ∧
    (retryLazyComponent s).instances = s.instances ++ [freshInstance (s.retryKey + 1)] ∧
    (retryLazyComponent s).onRetryCalls = s.onRetryCalls ∧
    (retryLazyComponent s).onErrorCalls = s.onErrorCalls ∧
    (retryLazyComponent s).events = s.events ++ [ResetEvent.clearTimers, ResetEvent.incLoaderGen] := by
  simp [retryLazyComponent, logC]

theorem handleReset_spec (s : CompState) :
    (handleReset s).retryKey = s.retryKey + 1 ∧
    (handleReset s).mountKey = s.mountKey + 1 ∧
    (handleReset s).timers = [] ∧
    (handleReset s).isMounted = s.isMounted ∧
    (handleReset s).instances = s.instances ++ [freshInstance (s.retryKey + 1)] ∧
    (handleReset s).onRetryCalls = s.onRetryCalls + 1 ∧
    (handleReset s).onErrorCalls = s.onErrorCalls ∧
    (handleReset s).events = s.events ++
      [ResetEvent.clearTimers, ResetEvent.incLoaderGen,
       ResetEvent.incMountGen, ResetEvent.onRetryCall] := by
  simp [handleReset, retryLazyComponent, logC]

theorem handleReset_live (s : CompState)
    (hgen : ∀ i ∈ s.instances, i.gen ≤ s.retryKey) :
    liveCount (handleReset s) = 1 ∧
    ∀ i ∈ (handleReset s).instances, i.gen ≤ (handleReset s).retryKey := by
  obtain ⟨h1, _, _, _, h5, _, _, _⟩ := handleReset_spec s
  constructor
  · unfold liveCount
    rw [h5, h1, List.filter_append]
    have hold : s.instances.filter (fun i => i.gen == s.retryKey + 1) = [] := by
      rw [List.filter_eq_nil]
      intro i hi
      have := hgen i hi
      simp only [beq_iff_eq]
      omega
    rw [hold]
    simp [freshInstance]
  · intro i hi
    rw [h5] at hi
    rw [h1]
    rcases List.mem_append.mp hi with h | h
    · exact le_trans (hgen i h) (by omega)
    · simp only [List.mem_singleton] at h
      subst h
      simp [freshInstance]

theorem handleRetry_onRetryCalls (s : CompState) :
    (handleRetry s).onRetryCalls = (handleReset (handleReset s)).onRetryCalls := rfl

theorem handleRetry_retryKey (s : CompState) :
    (handleRetry s).retryKey = (handleReset (handleReset s)).retryKey := rfl

theorem handleRetry_mountKey (s : CompState) :
    (handleRetry s).mountKey = (handleReset (handleReset s)).mountKey := rfl

theorem handleRetry_instances (s : CompState) :
    (handleRetry s).instances = (handleReset (handleReset s)).instances := rfl

theorem liveCount_handleRetry (s : CompState) :
    liveCount (handleRetry s) = liveCount (handleReset (handleReset s)) := by
  unfold liveCount
  rw [handleRetry_instances, handleRetry_retryKey]

theorem attemptSettled_counters (p : Policy) (v c m : Bool) (o : ImportOutcome) (s : StepState) :
    (attemptSettled p v c m o s).onRetryCalls = s.onRetryCalls ∧
    (attemptSettled p v c m o s).onErrorCalls = s.onErrorCalls ∧
    (attemptSettled p v c m o s).invocations = s.invocations := by
  cases o <;> simp only [attemptSettled] <;> repeat' split <;> simp

theorem attemptSettled_fail_live (p : Policy) (v : Bool) (e : Nat) (s : StepState) :
    (attemptSettled p v false true (.failure e) s).attempts = s.attempts + 1 := by
  simp only [attemptSettled]
  repeat' split <;> simp_all

theorem backoffDelays_get (base : Nat) :
    ∀ t a j, j < t → (backoffDelays base a t).get? j = some (base * (a + j)) := by
  intro t
  induction t with
  | zero => intro a j hj; omega
  | succ t ih =>
    intro a j hj
    cases j with
    | zero => simp [backoffDelays]
    | succ j =>
      rw [backoffDelays_succ]
      simp only [List.get?_cons_succ]
      rw [ih (a + 1) j (by omega)]
      congr 1
      ring

/-- Claim C1, counterexample: with `retries = 0` and an always-failing
loader the source still invokes the loader once - `attempts` is compared to
`retries` only after the increment that follows the first failure - so "the
orchestrator invokes the loader exactly N times" fails at N = 0. -/
theorem C1_counterexample :
    (tryImportRun (alwaysFail (fun k => k)) (Policy.mk 0 1000)
        false false true initStep).invocations = 1 ∧
    (Policy.mk 0 1000).retries = 0 := by
  constructor
  · rw [tryImportRun]
    decide
  · rfl

/-- Claim C1 (amended): for every `retries = N` and an always-failing
loader, the loader is invoked exactly `max N 1` times and the handle is
then rejected with the error of the final invocation; for `N ≤ 1` the
first failure is immediately terminal, with no retry delay scheduled. -/
theorem C1_retries_exhausted (p : Policy) (err : Nat → Nat) (v : Bool) :
    (tryImportRun (alwaysFail err) p v false true initStep).invocations = max p.retries 1 ∧
    (tryImportRun (alwaysFail err) p v false true initStep).handle =
      .rejectedH (.loaderError (err (max p.retries 1 - 1))) ∧
    (p.retries ≤ 1 →
      (tryImportRun (alwaysFail err) p v false true initStep).delays = []) := by
  have h := run_alwaysFail err p v p.retries initStep (by simp [initStep]) rfl
  rw [h]
  refine ⟨by simp [initStep], by simp [initStep], fun h1 => ?_⟩
  have h2 : max p.retries 1 - 1 = 0 := by omega
  simp [initStep, h2, backoffDelays]

/-- Claim C1 witness: at `retries = 1` the always-failing loader is invoked
once, the handle is rejected with the first error, and no delay is
scheduled. -/
theorem C1_retries_exhausted_witness :
    (tryImportRun (alwaysFail (fun k => k)) (Policy.mk 1 500)
        false false true initStep).invocations = 1 ∧
    (tryImportRun (alwaysFail (fun k => k)) (Policy.mk 1 500)
        false false true initStep).handle = .rejectedH (.loaderError 0) ∧
    (tryImportRun (alwaysFail (fun k => k)) (Policy.mk 1 500)
        false false true initStep).delays = [] := by
  obtain ⟨h1, h2, h3⟩ := C1_retries_exhausted (Policy.mk 1 500) (fun k => k) false
  exact ⟨h1, h2, h3 (by decide)⟩

/-- Claim C2, counterexample: a failure settling after teardown is not
effect-free - the `.catch` handler rejects the (pending) handle with the
cancellation error, so the handle does settle. -/
theorem C2_counterexample :
    (attemptSettled (Policy.mk 3 1000) true false false (.failure 7) initStep).handle ≠
      initStep.handle ∧
    (attemptSettled (Policy.mk 3 1000) true false false (.failure 7) initStep).handle =
      .rejectedH .cancelledError := by
  decide

/-- Claim C2 (amended): if teardown occurs while an attempt is pending
(`mounted = false` at settlement time), a success settlement is dropped with
zero observable effects, and a failure settlement invokes no callback,
schedules no timer, emits no log line even under verbose mode, and leaves
the attempt counter unchanged - but it does call `reject` on the handle with
the cancellation error (a no-op only if the handle is already settled). -/
theorem C2_teardown_settlement (p : Policy) (v c : Bool) (m e : Nat) (s : StepState) :
    attemptSettled p v c false (.success m) s = s ∧
    attemptSettled p v c false (.failure e) s =
      { s with handle := settleReject s.handle .cancelledError,
               settles := s.settles + 1 } := by
  cases c <;> exact ⟨rfl, rfl⟩

/-- Claim C3, counterexample: after a rekey (`retryLazyComponent`) the old
LoaderInstance's `currentAttemptCancelled` flag is still `false` (the only
assignment to it is inside the function returned by the Promise executor,
which is never invoked), and the settlement of its in-flight failed attempt
is processed with `cancelled = false, mounted = true`: it increments the
attempt counter and schedules a 1000ms retry timer - it is not ignored. -/
theorem C3_counterexample :
    ((retryLazyComponent (initComp true)).instances.head?.map LoaderInstance.cancelled) =
      some false ∧
    (retryLazyComponent (initComp true)).isMounted = true ∧
    (attemptSettled (Policy.mk 3 1000) true false true (.failure 7) initStep).attempts = 1 ∧
    (attemptSettled (Policy.mk 3 1000) true false true (.failure 7) initStep).delays = [1000] := by
  decide

/-- Claim C3 (amended): incrementing loaderGeneration synchronously clears
all pending timers and constructs a new LoaderInstance with `attempts = 0`
against the same loader and policy, but it sets no cancellation flag on the
old instance (the old instances, including their `cancelled` flags, are left
exactly as they were, and the mounted flag stays true), so an in-flight
attempt of the old instance is not ignored: its failure settlement still
increments that instance's attempt counter and can schedule a new timer or
settle its handle. -/
theorem C3_rekey (s : CompState) (p : Policy) (v : Bool) (e : Nat) (st : StepState) :
    (retryLazyComponent s).retryKey = s.retryKey + 1 ∧
    (retryLazyComponent s).timers = [] ∧
    (retryLazyComponent s).instances = s.instances ++ [freshInstance (s.retryKey + 1)] ∧
    (freshInstance (s.retryKey + 1)).attempts = 0 ∧
    (freshInstance (s.retryKey + 1)).cancelled = false ∧
    (retryLazyComponent s).isMounted = s.isMounted ∧
    (attemptSettled p v false true (.failure e) st).attempts = st.attempts + 1 := by
  obtain ⟨h1, _, h3, h4, h5, _, _, _⟩ := retryLazy_spec s
  exact ⟨h1, h3, h5, rfl, rfl, h4, attemptSettled_fail_live p v e st⟩

/-- Claim C4, counterexample: one manual reset action - a single invocation
of the error view's reset trigger `handleRetry` - fires `onRetry` twice,
not once: once from the direct `handleReset()` call (line 225) and once
more because `resetErrorBoundary()` (line 226) invokes the boundary's
`onReset` prop, which line 279 also wires to `handleReset`. -/
theorem C4_counterexample :
    (handleRetry (initComp false)).onRetryCalls = 2 ∧ (2 : Nat) ≠ 1 := by
  decide

/-- Claim C4 (amended): each manual reset action (one invocation of the
error view's reset trigger) runs `handleReset` twice - directly and again
through the boundary's `onReset` prop - so `onRetry` fires exactly twice per
manual reset action (exactly once per `handleReset` run); `onRetry` is never
invoked by the internal automatic retry loop (neither a full run nor a
single attempt settlement touches it); and reset actions in immediate
succession do not accumulate live LoaderInstances: after one or two trigger
invocations exactly one LoaderInstance is live, with exactly two further
`onRetry` invocations per trigger invocation and no other duplication. -/
theorem C4_onRetry_per_trigger (s : CompState) (loader : Nat → ImportOutcome)
    (p : Policy) (v c m : Bool) (o : ImportOutcome) (st : StepState)
    (hgen : ∀ i ∈ s.instances, i.gen ≤ s.retryKey) :
    (handleReset s).onRetryCalls = s.onRetryCalls + 1 ∧
    (handleRetry s).onRetryCalls = s.onRetryCalls + 2 ∧
    (tryImportRun loader p v c m st).onRetryCalls = st.onRetryCalls ∧
    (attemptSettled p v c m o st).onRetryCalls = st.onRetryCalls ∧
    liveCount (handleRetry s) = 1 ∧
    (handleRetry (handleRetry s)).onRetryCalls = s.onRetryCalls + 4 ∧
    liveCount (handleRetry (handleRetry s)) = 1 := by
  have hA := handleReset_spec s
  have hB := handleReset_spec (handleReset s)
  have hL1 := handleReset_live s hgen
  have hL2 := handleReset_live (handleReset s) hL1.2
  have hg2 : ∀ i ∈ (handleRetry s).instances, i.gen ≤ (handleRetry s).retryKey := by
    rw [handleRetry_instances, handleRetry_retryKey]
    exact hL2.2
  have hL3 := handleReset_live (handleRetry s) hg2
  have hL4 := handleReset_live (handleReset (handleRetry s)) hL3.2
  have hC := handleReset_spec (handleRetry s)
  have hD := handleReset_spec (handleReset (handleRetry s))
  refine ⟨hA.2.2.2.2.2.1, ?_, (run_invariants loader p v c m st).2.2.1,
    (attemptSettled_counters p v c m o st).1, ?_, ?_, ?_⟩
  · rw [handleRetry_onRetryCalls, hB.2.2.2.2.2.1, hA.2.2.2.2.2.1]
  · rw [liveCount_handleRetry]
    exact hL2.1
  · rw [handleRetry_onRetryCalls (handleRetry s), hD.2.2.2.2.2.1, hC.2.2.2.2.2.1,
      handleRetry_onRetryCalls s, hB.2.2.2.2.2.1, hA.2.2.2.2.2.1]
  · rw [liveCount_handleRetry (handleRetry s)]
    exact hL4.1

/-- Claim C4 witness: from a fresh component, one `handleReset` run fires
`onRetry` once, one trigger invocation fires it twice, the internal loop
fires it zero times, and one or two trigger invocations each leave exactly
one live instance. -/
theorem C4_onRetry_per_trigger_witness :
    (handleReset (initComp false)).onRetryCalls = 1 ∧
    (handleRetry (initComp false)).onRetryCalls = 2 ∧
    (tryImportRun (alwaysFail (fun k => k)) (Policy.mk 3 1000)
        false false true initStep).onRetryCalls = 0 ∧
    (attemptSettled (Policy.mk 3 1000) false false true (.failure 0) initStep).onRetryCalls = 0 ∧
    liveCount (handleRetry (initComp false)) = 1 ∧
    (handleRetry (handleRetry (initComp false))).onRetryCalls = 4 ∧
    liveCount (handleRetry (handleRetry (initComp false))) = 1 := by
  obtain ⟨h1, h2, h3, h4, h5, h6, h7⟩ := C4_onRetry_per_trigger (initComp false)
    (alwaysFail (fun k => k)) (Policy.mk 3 1000) false false true (.failure 0) initStep
    (by decide)
  exact ⟨h1, h2, h3, h4, h5, h6, h7⟩

/-- Claim C5: a manual reset clears every pending timer, constructs the new
LoaderInstance with its attempt counter at 0, increments loaderGeneration
(retryKey) by exactly 1, then mountGeneration (mountKey) by exactly 1, and
only then invokes `onRetry` - the emitted event trace is exactly
clearTimers, incLoaderGen (which creates the attempts = 0 instance),
incMountGen, onRetryCall, in that order. -/
theorem C5_reset_order (s : CompState) :
    (handleReset s).events = s.events ++
      [ResetEvent.clearTimers, ResetEvent.incLoaderGen,
       ResetEvent.incMountGen, ResetEvent.onRetryCall] ∧
    (handleReset s).timers = [] ∧
    (handleReset s).retryKey = s.retryKey + 1 ∧
    (handleReset s).mountKey = s.mountKey + 1 ∧
    (handleReset s).instances = s.instances ++ [freshInstance (s.retryKey + 1)] ∧
    (freshInstance (s.retryKey + 1)).attempts = 0 ∧
    (handleReset s).onRetryCalls = s.onRetryCalls + 1 := by
  obtain ⟨h1, h2, h3, h4, h5, h6, h7, h8⟩ := handleReset_spec s
  exact ⟨h8, h3, h1, h2, h5, rfl, h6⟩

/-- Claim C6: linear backoff - for a loader failing on its first f attempts
and succeeding on attempt f+1 (with f < retries), the scheduled delays are
exactly `retryDelay * 1, ..., retryDelay * f` (the delay before retry
attempt k+1, after k failures, is `retryDelay * k`), the loader is invoked
exactly f+1 times, and the handle resolves. -/
theorem C6_linear_backoff (p : Policy) (err : Nat → Nat) (m : Nat) (v : Bool) (f : Nat)
    (hf : f < p.retries) :
    (tryImportRun (fun k => if k < f then .failure (err k) else .success m)
        p v false true initStep).delays = backoffDelays p.retryDelay 1 f ∧
    (∀ j, j < f →
      (tryImportRun (fun k => if k < f then .failure (err k) else .success m)
          p v false true initStep).delays.get? j = some (p.retryDelay * (j + 1))) ∧
    (tryImportRun (fun k => if k < f then .failure (err k) else .success m)
        p v false true initStep).invocations = f + 1 ∧
    (tryImportRun (fun k => if k < f then .failure (err k) else .success m)
        p v false true initStep).handle = .resolvedH m := by
  have h := run_failThenSucceed err m f p v f initStep (by simp [initStep]) rfl rfl
    (by simp [initStep]) hf
  rw [h]
  refine ⟨by simp [initStep], ?_, by simp, by simp⟩
  intro j hj
  simp only [initStep, List.nil_append, Nat.zero_add, Nat.sub_zero]
  rw [backoffDelays_get p.retryDelay f 1 j hj, Nat.add_comm 1 j]

/-- Claim C6 witness: with `retries = 3, retryDelay = 1000` and a loader
failing twice then succeeding, the delays are 1000 then 2000, the loader is
invoked exactly 3 times, and the handle resolves. -/
theorem C6_linear_backoff_witness :
    (2 : Nat) < 3 ∧
    (tryImportRun (fun k => if k < 2 then .failure k else .success 5)
        (Policy.mk 3 1000) true false true initStep).delays = [1000, 2000] ∧
    (tryImportRun (fun k => if k < 2 then .failure k else .success 5)
        (Policy.mk 3 1000) true false true initStep).invocations = 3 ∧
    (tryImportRun (fun k => if k < 2 then .failure k else .success 5)
        (Policy.mk 3 1000) true false true initStep).handle = .resolvedH 5 := by
  obtain ⟨h1, _, h3, h4⟩ := C6_linear_backoff (Policy.mk 3 1000) (fun k => k) 5 true 2
    (by decide)
  exact ⟨by decide, h1.trans (by decide), h3, h4⟩

/-- Claim C7: on a captured failure the boundary's `onError` hook fires the
user callback exactly once, unconditionally, and performs no reset (keys,
timers and instances untouched); the orchestrator's internal attempt loop -
in particular any individual non-final attempt failure - never fires
`onError`. -/
theorem C7_onError_capture (e : LoadError) (info : Nat) (s : CompState)
    (loader : Nat → ImportOutcome) (p : Policy) (v c m : Bool)
    (o : ImportOutcome) (st : StepState) :
    (handleError e info s).onErrorCalls = s.onErrorCalls + 1 ∧
    (handleError e info s).onRetryCalls = s.onRetryCalls ∧
    (handleError e info s).retryKey = s.retryKey ∧
    (handleError e info s).mountKey = s.mountKey ∧
    (handleError e info s).timers = s.timers ∧
    (handleError e info s).instances = s.instances ∧
    (tryImportRun loader p v c m st).onErrorCalls = st.onErrorCalls ∧
    (attemptSettled p v c m o st).onErrorCalls = st.onErrorCalls := by
  exact ⟨rfl, rfl, rfl, rfl, rfl, rfl, (run_invariants loader p v c m st).2.1,
    (attemptSettled_counters p v c m o st).2.1⟩

/-- Claim C8: fallback view resolution dispatches on the override's shape -
unset resolves to the built-in default view, a pre-built element is shown
(for the error view: cloned with `{error, resetErrorBoundary}` injected), a
factory is invoked to produce the view; the error resolution passes the
error and the reset trigger, the loading resolution passes nothing, and the
trigger routes into the reset entry point: it is `handleReset` followed by
the boundary's own reset, whose `onReset` prop (line 279) runs `handleReset`
once more - so invoking the trigger clears the captured error, advances both
generation keys by exactly 2, and fires `onRetry` exactly twice. -/
theorem C8_fallback_resolution (e : LoadError) (t : Nat)
    (rb : CompState → CompState) (s : CompState) :
    ErrorFallback .unset e rb =
      { base := .defaultError, passedError := some e,
        trigger := some (fun x => rb (handleReset x)) } ∧
    ErrorFallback (.element t) e rb =
      { base := .clonedElement t, passedError := some e,
        trigger := some (fun x => rb (handleReset x)) } ∧
    ErrorFallback (.factory t) e rb =
      { base := .renderedComponent t, passedError := some e,
        trigger := some (fun x => rb (handleReset x)) } ∧
    renderLoadingComponent .unset = .defaultLoading ∧
    renderLoadingComponent (.element t) = .asIsElement t ∧
    renderLoadingComponent (.factory t) = .renderedNoProps t ∧
    handleRetry s = resetBoundary (handleReset s) ∧
    resetBoundary s = { handleReset s with boundaryError := none } ∧
    (handleRetry s).boundaryError = none ∧
    (handleRetry s).onRetryCalls = s.onRetryCalls + 2 ∧
    (handleRetry s).retryKey = s.retryKey + 2 ∧
    (handleRetry s).mountKey = s.mountKey + 2 := by
  have hA := handleReset_spec s
  have hB := handleReset_spec (handleReset s)
  refine ⟨rfl, rfl, rfl, rfl, rfl, rfl, rfl, rfl, rfl, ?_, ?_, ?_⟩
  · rw [handleRetry_onRetryCalls, hB.2.2.2.2.2.1, hA.2.2.2.2.2.1]
  · rw [handleRetry_retryKey, hB.1, hA.1]
  · rw [handleRetry_mountKey, hB.2.1, hA.2.1]

/-- Claim C9: the ResourceHandle settles at most once - `resolve`/`reject`
take a pending handle to resolved/rejected and are no-ops on a settled one
(first settlement wins), a full orchestrator run performs at most one
settlement call, an already-settled handle is never changed by a run, and a
completed always-failing run from a fresh instance settles exactly once. -/
theorem C9_settle_once (loader : Nat → ImportOutcome) (p : Policy) (v c m : Bool)
    (s : StepState) (err : Nat → Nat) (w w2 : Nat) (e e2 : LoadError) :
    settleResolve .pending w = .resolvedH w ∧
    settleReject .pending e = .rejectedH e ∧
    settleResolve (.resolvedH w) w2 = .resolvedH w ∧
    settleResolve (.rejectedH e) w2 = .rejectedH e ∧
    settleReject (.resolvedH w) e2 = .resolvedH w ∧
    settleReject (.rejectedH e) e2 = .rejectedH e ∧
    (tryImportRun loader p v c m s).settles ≤ s.settles + 1 ∧
    (s.handle ≠ .pending → (tryImportRun loader p v c m s).handle = s.handle) ∧
    (tryImportRun (alwaysFail err) p v false true initStep).settles = 1 := by
  have h := run_invariants loader p v c m s
  have h2 := run_alwaysFail err p v p.retries initStep (by simp [initStep]) rfl
  refine ⟨rfl, rfl, rfl, rfl, rfl, rfl, h.1, h.2.2.2, ?_⟩
  rw [h2]
  simp [initStep]

/-- Claim C9 witness: concrete settled-handle run - the run leaves an
already-resolved handle untouched, settle operations are first-wins, and a
fresh always-failing run settles exactly once. -/
theorem C9_settle_once_witness :
    settleResolve .pending 1 = .resolvedH 1 ∧
    settleReject (.resolvedH 1) .cancelledError = .resolvedH 1 ∧
    (tryImportRun (alwaysFail (fun k => k)) (Policy.mk 2 10) false false true
        { initStep with handle := .resolvedH 5 }).settles ≤
      { initStep with handle := .resolvedH 5 }.settles + 1 ∧
    (tryImportRun (alwaysFail (fun k => k)) (Policy.mk 2 10) false false true
        { initStep with handle := .resolvedH 5 }).handle = .resolvedH 5 ∧
    (tryImportRun (alwaysFail (fun k => k)) (Policy.mk 2 10) false false true
        initStep).settles = 1 := by
  obtain ⟨h1, _, _, _, h5, _, h7, h8, h9⟩ := C9_settle_once (alwaysFail (fun k => k))
    (Policy.mk 2 10) false false true { initStep with handle := .resolvedH 5 }
    (fun k => k) 1 2 .cancelledError .cancelledError
  exact ⟨h1, h5, h7, h8 (by decide), h9⟩

/-- Claim C10: timer-registry invariant - every id in `timersRef` refers to
a scheduled, not-yet-fired, not-yet-cleared timeout, and this is preserved
by every operation; `createSafeTimeout` after unmount schedules nothing and
adds nothing; a firing timer first deletes its own id from the registry and
runs its callback only when still mounted; `clearAllTimers` leaves the
registry empty (and unmount clears it and drops the mounted flag). -/
theorem C10_timer_registry (w : TimerWorld) (id : Nat) (cb : TimerWorld → TimerWorld) :
    (TimerInv w → TimerInv (createSafeTimeout w).1) ∧
    (w.mounted = false → createSafeTimeout w = (w, none)) ∧
    (w.mounted = true → fireTimer w id cb =
      cb { w with scheduled := w.scheduled.filter (fun i => i ≠ id),
                  timerSet := w.timerSet.filter (fun i => i ≠ id) }) ∧
    (w.mounted = false → fireTimer w id cb =
      { w with scheduled := w.scheduled.filter (fun i => i ≠ id),
               timerSet := w.timerSet.filter (fun i => i ≠ id) }) ∧
    id ∉ (w.timerSet.filter (fun i => i ≠ id)) ∧
    (TimerInv w → (∀ x, TimerInv x → TimerInv (cb x)) → TimerInv (fireTimer w id cb)) ∧
    (clearAllTimersW w).timerSet = [] ∧
    TimerInv (clearAllTimersW w) ∧
    (unmountW w).timerSet = [] ∧
    (unmountW w).mounted = false := by
  refine ⟨?_, ?_, ?_, ?_, ?_, ?_, rfl, ?_, rfl, rfl⟩
  · intro hInv
    by_cases hm : w.mounted
    · intro x hx
      simp [createSafeTimeout, hm] at hx ⊢
      rcases hx with hx | hx
      · exact Or.inl (hInv x hx)
      · exact Or.inr hx
    · simpa [createSafeTimeout, hm] using hInv
  · intro hm
    simp [createSafeTimeout, hm]
  · intro hm
    simp [fireTimer, hm]
  · intro hm
    simp [fireTimer, hm]
  · simp
  · intro hInv hcb
    by_cases hm : w.mounted
    · have he : fireTimer w id cb =
          cb { w with scheduled := w.scheduled.filter (fun i => i ≠ id),
                      timerSet := w.timerSet.filter (fun i => i ≠ id) } := by
        simp [fireTimer, hm]
      rw [he]
      apply hcb
      intro x hx
      simp only [List.mem_filter, decide_eq_true_eq] at hx ⊢
      exact ⟨hInv x hx.1, hx.2⟩
    · have he : fireTimer w id cb =
          { w with scheduled := w.scheduled.filter (fun i => i ≠ id),
                   timerSet := w.timerSet.filter (fun i => i ≠ id) } := by
        simp [fireTimer, hm]
      rw [he]
      intro x hx
      simp only [List.mem_filter, decide_eq_true_eq] at hx ⊢
      exact ⟨hInv x hx.1, hx.2⟩
  · intro x hx
    simp [clearAllTimersW] at hx

/-- Claim C10 witness: concrete instantiations - the invariant holds after
scheduling on a fresh mounted world, scheduling after unmount is the
identity, a firing timer removes its id, and clearing empties the set. -/
theorem C10_timer_registry_witness :
    TimerInv (createSafeTimeout (TimerWorld.mk 0 [] [] true)).1 ∧
    createSafeTimeout (TimerWorld.mk 1 [5] [5] false) = (TimerWorld.mk 1 [5] [5] false, none) ∧
    fireTimer (TimerWorld.mk 0 [3] [3] true) 3 (fun x => x) = TimerWorld.mk 0 [] [] true ∧
    TimerInv (fireTimer (TimerWorld.mk 0 [3] [3] true) 3 (fun x => x)) ∧
    TimerInv (clearAllTimersW (TimerWorld.mk 0 [3] [3] true)) := by
  obtain ⟨hA, _, _, _, _, _, _, _, _, _⟩ :=
    C10_timer_registry (TimerWorld.mk 0 [] [] true) 0 (fun x => x)
  obtain ⟨_, hB, _, _, _, _, _, _, _, _⟩ :=
    C10_timer_registry (TimerWorld.mk 1 [5] [5] false) 0 (fun x => x)
  obtain ⟨_, _, hC, _, _, hF, _, hI, _, _⟩ :=
    C10_timer_registry (TimerWorld.mk 0 [3] [3] true) 3 (fun x => x)
  refine ⟨hA ?_, hB rfl, (hC rfl).trans (by decide),
    hF (fun x hx => hx) (fun x hx => hx), hI⟩
  intro x hx
  simp at hx

end LazyRetry
